import Mathlib

/-!
Verification of the git-manager repository reconciliation and pruning tool
against its natural-language specification.

The development shallowly embeds `src/git_manager/main.py`.  Python strings
are modelled as lists of characters (`PyStr`), `pathlib.Path` values as lists
of path components (`AbsPath`), `Path.resolve()` as lexical normalisation of
`.` and `..` segments, and `Path.relative_to` as a component-wise starts-with
test.  Side-effecting operations (git subprocesses, directory removal, the
interactive confirmation prompt, the `main` entry point) are embedded as pure
functions that return the sequence of externally visible actions they would
perform, so that temporal ordering claims become statements about traces.
-/

namespace GitManager

/-! ## Python string model -/

/-- Python `str` modelled as a list of characters. -/
abbrev PyStr := List Char

/-- Python `str.split(sep)` for a single-character separator (keeps empty
fields, as Python does for an explicit separator). -/
def pySplitOn (sep : Char) : PyStr → List PyStr
  | [] => [[]]
  | c :: rest =>
    match pySplitOn sep rest with
    | [] => [[c]]
    | h :: t => if c = sep then [] :: h :: t else (c :: h) :: t

/-- Generic decidable starts-with test: `hasPre pre s` is true when `pre` is
an initial segment of `s`.  Used for Python `str.startswith` and for
`Path.relative_to` (which succeeds exactly when the base path's components
are an initial segment of the path's components). -/
def hasPre {α : Type} [DecidableEq α] : List α → List α → Bool
  | [], _ => true
  | _ :: _, [] => false
  | a :: pre, b :: s => if a = b then hasPre pre s else false

/-- Python `str.startswith(pre)`. -/
def pyStartsWith (s pre : PyStr) : Bool := hasPre pre s

/-- Characters treated as whitespace by Python `str.strip()` (the ASCII ones
that can occur in terminal input). -/
def pyIsSpace (c : Char) : Bool := c = ' ' || c = '\t' || c = '\n' || c = '\r'

/-- Python `str.strip()`: remove leading and trailing whitespace. -/
def pyStrip (s : PyStr) : PyStr :=
  ((s.dropWhile pyIsSpace).reverse.dropWhile pyIsSpace).reverse

/-- Python `str.lower()`, character-wise. -/
def pyLower (s : PyStr) : PyStr := s.map Char.toLower

/-- Python `str.split()` with no argument: split on whitespace runs and drop
empty fields (spaces suffice for the `git for-each-ref` output format). -/
def pySplitWs (s : PyStr) : List PyStr := (pySplitOn ' ' s).filter (fun p => p ≠ [])

/-- Python `str.isdigit()` restricted to ASCII digits. -/
def pyIsDigitStr (s : PyStr) : Bool := !s.isEmpty && s.all Char.isDigit

/-- Python `int(s)` for a string of ASCII digits. -/
def digitsToNat (s : PyStr) : Nat := s.foldl (fun n c => 10 * n + (c.toNat - '0'.toNat)) 0

/-! ## Path model

An absolute POSIX path is its list of components below the filesystem root.
`Path.resolve()` (no symlinks in scope) is lexical normalisation: empty and
`.` components vanish, `..` pops the previous component and is a no-op at
the root. -/

/-- An absolute filesystem path as its component list. -/
abbrev AbsPath := List PyStr

/-- One step of `Path.resolve()` normalisation. -/
def resolveStep (acc : AbsPath) (c : PyStr) : AbsPath :=
  if c = [] ∨ c = ".".data then acc
  else if c = "..".data then acc.dropLast
  else acc ++ [c]

/-- Resolve a component sequence against an (already resolved) base path. -/
def resolveAgainst (base : AbsPath) (comps : List PyStr) : AbsPath :=
  comps.foldl resolveStep base

/-- `Path(p).resolve()` for an absolute component list `p`. -/
def resolvePath (p : AbsPath) : AbsPath := resolveAgainst [] p

/-- `(base / Path(s)).resolve()`: Python's `/` replaces the base entirely when
`s` is absolute, otherwise joins; `resolve()` then normalises. -/
def pyJoinResolve (base : AbsPath) (s : PyStr) : AbsPath :=
  if s.head? = some '/' then resolveAgainst [] (pySplitOn '/' s)
  else resolveAgainst base (pySplitOn '/' s)

/-- `p.relative_to(base)` succeeds (Python raises `ValueError` otherwise)
exactly when `base`'s components are an initial segment of `p`'s; note that
`p = base` succeeds, yielding `"."`. -/
def isWithin (base p : AbsPath) : Bool := hasPre base p

/-- Strict descendance: within the base and not the base itself. -/
def isStrictDescendant (base p : AbsPath) : Bool := hasPre base p && p ≠ base

/-! ## Configuration (`class Config`, main.py lines 22-31) -/

/-- `Config.PROTECTED_BRANCHES = frozenset({"master", "main", "develop"})`. -/
def PROTECTED_BRANCHES : List PyStr := ["master".data, "main".data, "develop".data]

/-- `Config.DAYS_OLD_THRESHOLD = 0`. -/
def DAYS_OLD_THRESHOLD : ℚ := 0

/-- `Config.DEFAULT_BACKUP_COMMIT_MESSAGE = "pruner: auto backup"`. -/
def DEFAULT_BACKUP_COMMIT_MESSAGE : PyStr := "pruner: auto backup".data

/-! ## GitLab client (`GitLabRepo`, main.py lines 257-322)

The transport is modelled as the finite sequence of page responses the
server would produce; after the listed pages the server is taken to answer
with empty (HTTP 200) list pages, which is how the pagination loop of
`get_json_response` terminates. -/

/-- A remote project record: `path_with_namespace` and `http_url_to_repo`. -/
abbrev ProjectRecord := PyStr × PyStr

/-- The possible transport outcomes for one page request. -/
inductive PageResult where
  /-- HTTP 200 with a JSON list body. -/
  | ok (data : List ProjectRecord)
  /-- non-success HTTP status. -/
  | badStatus (code : Nat)
  /-- HTTP 200 whose body is valid JSON but not a list. -/
  | nonListJson
  /-- HTTP 200 whose body is not decodable JSON. -/
  | undecodableJson
deriving DecidableEq

/-- The `GitLabAPIError` exception, tagged with its cause. -/
inductive ApiError where
  | status (code : Nat)
  | notAList
  | badJson
deriving DecidableEq

/-- `GitLabRepo.get_json_response` (lines 279-308): accumulate pages until an
empty list page arrives; raise `GitLabAPIError` on a non-success status, a
non-list body, or an undecodable body. -/
def getJsonResponse : List PageResult → Except ApiError (List ProjectRecord)
  | [] => .ok []
  | .ok data :: rest =>
    if data.isEmpty then .ok []
    else (getJsonResponse rest).map (fun tail => data ++ tail)
  | .badStatus code :: _ => .error (.status code)
  | .nonListJson :: _ => .error .notAList
  | .undecodableJson :: _ => .error .badJson

/-- `GitLabRepo.get_group_repositories` (lines 310-322): build the
`path_with_namespace -> http_url_to_repo` mapping, but catch
`GitLabAPIError` and return the empty mapping on any fetch failure. -/
def getGroupRepositories (pages : List PageResult) : List ProjectRecord :=
  match getJsonResponse pages with
  | .ok projects => projects
  | .error _ => []

/-! ## GitLabService (main.py lines 384-552) -/

/-- `GitLabService.__init__` (lines 385-397): resolve
`base_directory / group_id` and raise `ValueError` unless the result is
within the base directory. -/
def gitLabServiceInit (baseDirectory : AbsPath) (groupId : PyStr) :
    Except PyStr AbsPath :=
  let groupDirectory := pyJoinResolve baseDirectory groupId
  if isWithin baseDirectory groupDirectory then .ok groupDirectory
  else .error ("Group directory is not within base directory".data)

/-- One iteration of `GitLabService._map_gitlab_group_repos_to_absolute_path`
(lines 414-429): strip a literal group-id slash pre-segment when present and
resolve the remainder against the group directory.  No containment check is
performed here. -/
def mapOneGitlabPath (groupId : PyStr) (groupDirectory : AbsPath) (path : PyStr) :
    AbsPath :=
  let groupIdSlash := groupId ++ "/".data
  let localPath := if pyStartsWith path groupIdSlash
    then path.drop groupIdSlash.length else path
  pyJoinResolve groupDirectory localPath

/-- `GitLabService._map_gitlab_group_repos_to_absolute_path` over all remote
identifiers (dictionary keys). -/
def mapGitlabGroupReposToAbsolutePath (groupId : PyStr) (groupDirectory : AbsPath)
    (gitlabPaths : List PyStr) : List AbsPath :=
  gitlabPaths.map (mapOneGitlabPath groupId groupDirectory)

/-- `GitLabService._identify_repos_to_delete` (lines 431-456): keep the local
checkouts whose resolved path is absent from the mapped remote set, then keep
only those for which `relative_to(group_directory)` succeeds (the others are
dropped with a warning). -/
def identifyReposToDelete (groupDirectory : AbsPath)
    (localRepositories : List (PyStr × AbsPath))
    (mappedGitlabRepositories : List AbsPath) : List AbsPath :=
  let reposToDelete := (localRepositories.map Prod.snd).filter
    (fun fullPath => decide (resolvePath fullPath ∉ mappedGitlabRepositories))
  reposToDelete.filter (fun repo => isWithin groupDirectory repo)

/-- The delete-candidate computation of `GitLabService.sync` (lines 458-485):
fetch the remote listing, map its keys to absolute paths, and diff against
the discovered local checkouts. -/
def syncDeleteCandidates (pages : List PageResult) (groupId : PyStr)
    (groupDirectory : AbsPath) (localRepositories : List (PyStr × AbsPath)) :
    List AbsPath :=
  identifyReposToDelete groupDirectory localRepositories
    (mapGitlabGroupReposToAbsolutePath groupId groupDirectory
      ((getGroupRepositories pages).map Prod.fst))

/-! ## Directory removal (`remove_directory`, main.py lines 99-105, and the
confirmed-deletion loop of `sync`, lines 525-547) -/

/-- What `shutil.rmtree` would do on one directory. -/
inductive RemovalOutcome where
  | removed
  | notFound
  | osError (msg : PyStr)
deriving DecidableEq

/-- `remove_directory`: `FileNotFoundError` is passed over and `OSError` is
logged and swallowed, so the function never propagates an exception; the
returned value is the exception (if any) that escapes to the caller. -/
def removeDirectoryRaises : RemovalOutcome → Option PyStr
  | .removed => none
  | .notFound => none
  | .osError _ => none

/-- The deletion loop of `sync` (lines 529-540): each candidate is wrapped in
`try`/`except`; `deleted_count` is incremented when no exception escapes
`remove_directory`, otherwise the candidate and error text are appended to
`failed_deletions`. -/
def deletionSummary (toDelete : List (AbsPath × RemovalOutcome)) :
    Nat × List (AbsPath × PyStr) :=
  toDelete.foldl
    (fun acc d =>
      match removeDirectoryRaises d.2 with
      | none => (acc.1 + 1, acc.2)
      | some e => (acc.1, acc.2 ++ [(d.1, e)]))
    (0, [])

/-! ## Confirmation workflow (`sync`, main.py lines 508-523) -/

/-- The cancellation tokens checked (case-insensitively) by the prompt. -/
def cancelTokens : List PyStr := ["no".data, "n".data, "cancel".data]

/-- The exact confirmation string the prompt requires. -/
def deleteConfirmation (groupId : PyStr) : PyStr := "DELETE ".data ++ groupId

/-- What one prompt iteration does with one operator input. -/
inductive ConfirmAction where
  | abort
  | proceed
  | reprompt
deriving DecidableEq

/-- One iteration of the confirmation loop: the raw input is stripped, then
compared (lowercased) against the cancellation tokens, then compared exactly
against `DELETE <group_id>`; anything else re-prompts. -/
def classifyResponse (groupId rawInput : PyStr) : ConfirmAction :=
  let response := pyStrip rawInput
  if decide (pyLower response ∈ cancelTokens) then .abort
  else if response = deleteConfirmation groupId then .proceed
  else .reprompt

/-- Result of running the confirmation loop on a sequence of inputs:
`pending` means every supplied input re-prompted. -/
inductive ConfirmOutcome where
  | cancelled
  | confirmed
  | pending
deriving DecidableEq

/-- The confirmation loop over the operator's input sequence. -/
def confirmationOutcome (groupId : PyStr) : List PyStr → ConfirmOutcome
  | [] => .pending
  | r :: rest =>
    match classifyResponse groupId r with
    | .abort => .cancelled
    | .proceed => .confirmed
    | .reprompt => confirmationOutcome groupId rest

/-- The deletions actually executed by `sync` for a given input sequence:
the candidate list when the loop confirmed, nothing otherwise. -/
def executedDeletions (groupId : PyStr) (inputs : List PyStr)
    (toDelete : List AbsPath) : List AbsPath :=
  match confirmationOutcome groupId inputs with
  | .confirmed => toDelete
  | _ => []

/-! ## Repository operations and pruning (`Repository`, main.py lines
130-239, and `RepoManageService.prune`, lines 338-381) -/

/-- A git operation issued by `safe_checkout`, in issue order. -/
inductive GitOp where
  | checkoutNewBranch (name : PyStr)
  | addAll
  | commit (message : PyStr)
  | checkout (branch : PyStr)
deriving DecidableEq

/-- The observable state of one repository when the pruning pass reaches it.
`backupBranchName` stands for the timestamp-derived name `safe_checkout`
would generate; `branchLines` is the `git for-each-ref` output consumed by
`get_branches_with_commit_dates`. -/
structure RepoState where
  activeBranch : Option PyStr
  headValid : Bool
  defaultBranch : Option PyStr
  dirty : Bool
  backupBranchName : PyStr
  branchLines : List PyStr

/-- `Repository.safe_checkout` (lines 203-230) as the pair of the git
operations it issues (in order) and its boolean return value: bail out with
no operations when the head is invalid or no default branch resolves; when
the tree is dirty, create the backup branch, add everything and commit under
the fixed message before the default-branch checkout. -/
def safeCheckout (r : RepoState) : List GitOp × Bool :=
  if !r.headValid then ([], false)
  else
    match r.defaultBranch with
    | none => ([], false)
    | some defaultBranch =>
      let backupOps := if r.dirty then
          [GitOp.checkoutNewBranch r.backupBranchName, GitOp.addAll,
            GitOp.commit DEFAULT_BACKUP_COMMIT_MESSAGE]
        else []
      (backupOps ++ [GitOp.checkout defaultBranch], true)

/-- The test `active_branch not in config.PROTECTED_BRANCHES` of `prune`
(line 346); Python's `None not in s` is `True` for a set of strings. -/
def activeBranchNotProtected : Option PyStr → Bool
  | none => true
  | some b => decide (b ∉ PROTECTED_BRANCHES)

/-- One line of `git for-each-ref` output parsed as in
`get_branches_with_commit_dates` (lines 157-175): skip the line unless it
splits into at least two fields with an all-digit second field. -/
def parseBranchLine (line : PyStr) : Option (PyStr × Nat) :=
  match pySplitWs line with
  | branch :: ts :: _ =>
    if pyIsDigitStr ts then some (branch, digitsToNat ts) else none
  | _ => none

/-- Python dict assignment `branches[branch_name] = commit_timestamp`:
replace in place when the key exists, append otherwise. -/
def dictInsert (d : List (PyStr × Nat)) (k : PyStr) (v : Nat) : List (PyStr × Nat) :=
  if d.any (fun p => p.1 == k) then
    d.map (fun p => if p.1 = k then (k, v) else p)
  else d ++ [(k, v)]

/-- `Repository.get_branches_with_commit_dates` (lines 141-180): parse every
output line into the branch dictionary, then pop every protected branch. -/
def getBranchesWithCommitDates (lines : List PyStr) : List (PyStr × Nat) :=
  let branches := lines.foldl
    (fun d line =>
      match parseBranchLine line with
      | some bt => dictInsert d bt.1 bt.2
      | none => d)
    []
  branches.filter (fun bt => decide (bt.1 ∉ PROTECTED_BRANCHES))

/-- `(datetime.now().timestamp() - commit_timestamp) / 86400.0` (line 355). -/
def ageInDays (now : ℚ) (commitTimestamp : Nat) : ℚ :=
  (now - commitTimestamp) / 86400

/-- What `RepoManageService.prune` does with one repository. -/
structure PruneRepoResult where
  checkoutAttempted : Bool
  gitOps : List GitOp
  abnormal : Bool
  deleteAttempts : List PyStr

/-- The per-repository body of `RepoManageService.prune` (lines 343-362):
read the active branch; call `safe_checkout` when it is not protected;
record the repository as abnormal when the head is detached; then attempt to
delete every enumerated branch that is not younger than the threshold. -/
def pruneRepo (now : ℚ) (r : RepoState) : PruneRepoResult :=
  let attempted := activeBranchNotProtected r.activeBranch
  let ops := if attempted then (safeCheckout r).1 else []
  let allBranches := getBranchesWithCommitDates r.branchLines
  let attempts := (allBranches.filter
    (fun bt => !decide (ageInDays now bt.2 < DAYS_OLD_THRESHOLD))).map Prod.fst
  ⟨attempted, ops, r.activeBranch.isNone, attempts⟩

/-! ## Entry point (`main`, main.py lines 670-749)

The run is modelled as the sequence of externally visible actions together
with the process exit status.  `check_dependencies` and `create_directory`
failures raise `EnvironmentError`, which `main` catches and logs (exit 0);
`sys.exit(1)` inside `GitLabRepo._get_token` terminates the process with
status 1; a `ValueError` from `GitLabService.__init__` is uncaught. -/

/-- Externally visible actions of a `main` run. -/
inductive MainEvent where
  /-- `create_directory(parser.group_directory)` when the base directory is
  missing. -/
  | createBaseDir
  /-- `gitlab_service.sync()`: network requests plus group-directory
  mutation. -/
  | syncRun
  /-- `gitlab_service.clone_group_repositories()`. -/
  | cloneRun
  /-- `repo_service.prune()`. -/
  | cleanupRun
deriving DecidableEq

/-- The event trace and exit status of one `main` invocation. -/
structure MainResult where
  events : List MainEvent
  exitCode : Nat
deriving DecidableEq

/-- `main` (lines 670-749), parameterised by the environment: whether `glab`
is installed, whether the base directory already exists, whether
`GITLAB_TOKEN` is set, the group id (empty when not supplied) and the
selected operation flags. -/
def mainRun (glabInstalled baseDirExists tokenSet : Bool) (groupId : PyStr)
    (baseDirectory : AbsPath) (doSync doClone doCleanup : Bool) : MainResult :=
  if !glabInstalled then ⟨[], 0⟩
  else
    let ev0 : List MainEvent := if baseDirExists then [] else [.createBaseDir]
    if groupId ≠ [] then
      if !tokenSet then ⟨ev0, 1⟩
      else
        match gitLabServiceInit baseDirectory groupId with
        | .error _ => ⟨ev0, 1⟩
        | .ok _ =>
          let ev1 := ev0 ++ (if doSync then [MainEvent.syncRun] else [])
          let ev2 := ev1 ++ (if doClone then [MainEvent.cloneRun] else [])
          let ev3 := ev2 ++ (if doCleanup then [MainEvent.cleanupRun] else [])
          ⟨ev3, 0⟩
    else
      ⟨ev0, 0⟩

end GitManager

namespace GitManager

/-! ## Helper lemmas -/

/-- Soundness of the starts-with test: `hasPre pre s` holds exactly when `s`
extends `pre`. -/
theorem hasPre_iff {α : Type} [DecidableEq α] :
    ∀ (pre s : List α), hasPre pre s = true ↔ ∃ t, s = pre ++ t
  | [], s => by
    show true = true ↔ ∃ t, s = [] ++ t
    simp
  | a :: pre, [] => by
    show false = true ↔ ∃ t, ([] : List α) = (a :: pre) ++ t
    simp
  | a :: pre, b :: s => by
    show (if a = b then hasPre pre s else false) = true ↔ _
    by_cases hab : a = b
    · subst hab
      rw [if_pos rfl, hasPre_iff pre s]
      constructor
      · rintro ⟨t, rfl⟩
        exact ⟨t, rfl⟩
      · rintro ⟨t, ht⟩
        exact ⟨t, (List.cons.inj ht).2⟩
    · rw [if_neg hab]
      simp only [Bool.false_eq_true, false_iff]
      rintro ⟨t, ht⟩
      exact hab ((List.cons.inj ht).1).symm

/-! ## Claim C10: service construction rejects a group directory that
escapes the base directory -/

/-- C10: for every base directory and group identifier, `GitLabService`
construction succeeds exactly when the resolved group directory
(`(base / group_id).resolve()`) lies within the resolved base directory; it
raises `ValueError` (and hence yields no service) otherwise, so every sync
run starts with a group directory contained in the base directory. -/
theorem serviceInit_rejects_escaping_group_directory
    (baseDirectory : AbsPath) (groupId : PyStr) :
    (isWithin baseDirectory (pyJoinResolve baseDirectory groupId) = false →
      gitLabServiceInit baseDirectory groupId
        = .error ("Group directory is not within base directory".data)) ∧
    (∀ groupDirectory,
      gitLabServiceInit baseDirectory groupId = .ok groupDirectory →
        groupDirectory = pyJoinResolve baseDirectory groupId ∧
        isWithin baseDirectory groupDirectory = true) := by
  constructor
  · intro h
    simp [gitLabServiceInit, h]
  · intro groupDirectory h
    simp only [gitLabServiceInit] at h
    by_cases hw : isWithin baseDirectory (pyJoinResolve baseDirectory groupId) = true
    · rw [if_pos hw] at h
      cases h
      exact ⟨rfl, hw⟩
    · rw [if_neg hw] at h
      cases h

/-- Witness for C10: the traversal identifier `".."` resolves to the parent
of the base directory and is rejected, while an ordinary identifier is
accepted and its group directory is inside the base directory. -/
theorem serviceInit_rejects_escaping_group_directory_witness :
    gitLabServiceInit ["home".data, "r".data] "..".data
      = .error ("Group directory is not within base directory".data) ∧
    isWithin ["home".data, "r".data] ["home".data, "r".data, "grp".data] = true :=
  ⟨(serviceInit_rejects_escaping_group_directory ["home".data, "r".data] "..".data).1
      (by decide),
    ((serviceInit_rejects_escaping_group_directory ["home".data, "r".data] "grp".data).2
      ["home".data, "r".data, "grp".data] rfl).2⟩

/-! ## Claim C2: containment of delete-candidates -/

/-- C2 counterexample: the claim fails on two counts.  First, when the group
directory is itself a discovered checkout (discovery key `"."`), it becomes a
delete-candidate although it is not a *strict* descendant of itself — the
`relative_to` containment check accepts equality.  Second, the mapping stage
performs no containment check at all: the crafted remote identifier
`"../evil"` is mapped to a path outside the group directory and kept in the
mapped set. -/
theorem containment_counterexample :
    identifyReposToDelete ["home".data, "r".data, "grp".data]
        [(".".data, ["home".data, "r".data, "grp".data])] []
      = [["home".data, "r".data, "grp".data]] ∧
    isStrictDescendant ["home".data, "r".data, "grp".data]
        ["home".data, "r".data, "grp".data] = false ∧
    mapGitlabGroupReposToAbsolutePath "grp".data ["home".data, "r".data, "grp".data]
        ["../evil".data]
      = [["home".data, "r".data, "evil".data]] ∧
    isWithin ["home".data, "r".data, "grp".data] ["home".data, "r".data, "evil".data]
      = false := by
  refine ⟨by decide, by decide, by decide, by decide⟩

/-- C2 amended: for every remote mapping and every local-checkout mapping,
every path in the returned delete-candidate set is a descendant-or-equal of
the managed group directory (`relative_to` succeeds on it); this containment
check is enforced once, when filtering the candidates — the mapping stage
performs no containment check, but mapped paths only shrink the candidate
set — and a candidate failing the check is dropped with a warning and never
reaches the deletion stage. -/
theorem delete_candidates_contained_in_group_directory
    (groupDirectory : AbsPath) (localRepositories : List (PyStr × AbsPath))
    (mappedGitlabRepositories : List AbsPath) (p : AbsPath)
    (hp : p ∈ identifyReposToDelete groupDirectory localRepositories
        mappedGitlabRepositories) :
    isWithin groupDirectory p = true := by
  unfold identifyReposToDelete at hp
  exact (List.mem_filter.mp hp).2

/-- Witness for C2 amended: a concrete checkout missing from the remote
listing is a candidate, and it is contained in the group directory. -/
theorem delete_candidates_contained_in_group_directory_witness :
    isWithin ["home".data, "r".data, "grp".data]
      ["home".data, "r".data, "grp".data, "x".data] = true :=
  delete_candidates_contained_in_group_directory
    ["home".data, "r".data, "grp".data]
    [("x".data, ["home".data, "r".data, "grp".data, "x".data])] []
    ["home".data, "r".data, "grp".data, "x".data] (by decide)

/-! ## Claim C8: mapping and set difference -/

/-- C8: the mapped remote path set strips a literal group-id-and-slash
initial segment (resolving the remainder against the group directory), and
for local checkouts that are all contained in the group directory — as every
discovered checkout is — the delete-candidate list is exactly the local
paths whose resolved form is absent from the mapped remote set: the set
difference by resolved absolute path. -/
theorem delete_candidates_are_set_difference
    (groupId : PyStr) (groupDirectory : AbsPath)
    (localRepositories : List (PyStr × AbsPath)) (mapped : List AbsPath)
    (hloc : ∀ kp ∈ localRepositories, isWithin groupDirectory kp.2 = true) :
    (∀ rest, mapOneGitlabPath groupId groupDirectory (groupId ++ "/".data ++ rest)
        = pyJoinResolve groupDirectory rest) ∧
    identifyReposToDelete groupDirectory localRepositories mapped
      = (localRepositories.map Prod.snd).filter
          (fun p => decide (resolvePath p ∉ mapped)) := by
  constructor
  · intro rest
    have hsw : pyStartsWith (groupId ++ "/".data ++ rest) (groupId ++ "/".data) = true := by
      unfold pyStartsWith
      exact (hasPre_iff _ _).mpr ⟨rest, by simp⟩
    unfold mapOneGitlabPath
    rw [List.append_assoc] at hsw
    simp only [List.append_assoc, hsw, if_pos]
    rw [← List.append_assoc, List.drop_left]
  · unfold identifyReposToDelete
    rw [List.filter_eq_self]
    intro p hp
    obtain ⟨kp, hkp, rfl⟩ := List.mem_map.mp (List.mem_filter.mp hp).1
    exact hloc kp hkp

/-- Witness for C8, the specification's scenario: remote listing
`{"grp/repoA": url}`, local checkouts `{repoA, repoB}` under the group
directory; the delete-candidates are exactly the absolute path of `repoB`. -/
theorem delete_candidates_are_set_difference_witness :
    identifyReposToDelete ["home".data, "r".data, "grp".data]
        [("repoA".data, ["home".data, "r".data, "grp".data, "repoA".data]),
          ("repoB".data, ["home".data, "r".data, "grp".data, "repoB".data])]
        (mapGitlabGroupReposToAbsolutePath "grp".data
          ["home".data, "r".data, "grp".data] ["grp/repoA".data])
      = [["home".data, "r".data, "grp".data, "repoB".data]] :=
  ((delete_candidates_are_set_difference "grp".data
      ["home".data, "r".data, "grp".data]
      [("repoA".data, ["home".data, "r".data, "grp".data, "repoA".data]),
        ("repoB".data, ["home".data, "r".data, "grp".data, "repoB".data])]
      (mapGitlabGroupReposToAbsolutePath "grp".data
        ["home".data, "r".data, "grp".data] ["grp/repoA".data])
      (by decide)).2).trans (by decide)

/-! ## Claim C1: a failed remote listing and the delete-candidate set -/

/-- C1 (code bug): `get_json_response` does raise `GitLabAPIError` on a
non-success status and on a non-list body, but `get_group_repositories`
catches the error and returns the empty mapping instead of surfacing it, so
the sync run is not aborted: with one local checkout `repoB` and a transport
that fails with HTTP 500, the local checkout is placed in the
delete-candidate set — exactly what the claim rules out.  (The
`except GitLabAPIError` handler in `main` is consequently unreachable.) -/
theorem failed_listing_floods_delete_candidates :
    getJsonResponse [PageResult.badStatus 500] = .error (.status 500) ∧
    getJsonResponse [PageResult.nonListJson] = .error .notAList ∧
    getGroupRepositories [PageResult.badStatus 500] = [] ∧
    syncDeleteCandidates [PageResult.badStatus 500] "grp".data
        ["home".data, "r".data, "grp".data]
        [("repoB".data, ["home".data, "r".data, "grp".data, "repoB".data])]
      = [["home".data, "r".data, "grp".data, "repoB".data]] :=
  ⟨rfl, rfl, rfl, by decide⟩

/-! ## Claim C4: the deletion-loop failure accounting -/

/-- C4 (code bug): `remove_directory` swallows `OSError` (and
`FileNotFoundError`), so no exception ever escapes it; the try/except and
`failed_deletions` accounting in the deletion loop of `sync` is therefore
unreachable for removal errors, and for three candidates of which one raises
a filesystem error during removal the final summary reports 3 successful
deletions and 0 failures — not the 2 and 1 the claim requires. -/
theorem removal_failure_counted_as_success :
    removeDirectoryRaises (.osError "Permission denied".data) = none ∧
    deletionSummary
        [(["home".data, "r".data, "grp".data, "a".data], .removed),
          (["home".data, "r".data, "grp".data, "b".data],
            .osError "Permission denied".data),
          (["home".data, "r".data, "grp".data, "c".data], .removed)]
      = (3, []) :=
  ⟨rfl, rfl⟩

/-! ## Claim C6: the confirmation workflow -/

/-- The lowercased stripped form of the confirmation string can never be a
cancellation token: it starts with a `d`. -/
theorem pyLower_deleteConfirmation_not_cancel (groupId : PyStr) :
    pyLower (deleteConfirmation groupId) ∉ cancelTokens := by
  have h7 : "DELETE ".data = ['D', 'E', 'L', 'E', 'T', 'E', ' '] := rfl
  have hct : cancelTokens = [['n', 'o'], ['n'], ['c', 'a', 'n', 'c', 'e', 'l']] := rfl
  rw [deleteConfirmation, h7, hct]
  simp [pyLower, Char.toLower]

/-- One prompt iteration proceeds exactly when the stripped input equals the
confirmation string. -/
theorem classifyResponse_proceed_iff (groupId rawInput : PyStr) :
    classifyResponse groupId rawInput = .proceed ↔
      pyStrip rawInput = deleteConfirmation groupId := by
  unfold classifyResponse
  by_cases htok : pyLower (pyStrip rawInput) ∈ cancelTokens
  · rw [if_pos (decide_eq_true htok)]
    constructor
    · intro h
      exact absurd h (by decide)
    · intro heq
      exact absurd (heq ▸ htok) (pyLower_deleteConfirmation_not_cancel groupId)
  · have hd : decide (pyLower (pyStrip rawInput) ∈ cancelTokens) = false :=
      decide_eq_false htok
    simp only [hd, Bool.false_eq_true, if_false]
    by_cases heq : pyStrip rawInput = deleteConfirmation groupId
    · simp [heq]
    · simp [heq]

/-- One prompt iteration aborts exactly when the lowercased stripped input is
a cancellation token. -/
theorem classifyResponse_abort_iff (groupId rawInput : PyStr) :
    classifyResponse groupId rawInput = .abort ↔
      pyLower (pyStrip rawInput) ∈ cancelTokens := by
  unfold classifyResponse
  by_cases htok : pyLower (pyStrip rawInput) ∈ cancelTokens
  · rw [if_pos (decide_eq_true htok)]
    simp [htok]
  · have hd : decide (pyLower (pyStrip rawInput) ∈ cancelTokens) = false :=
      decide_eq_false htok
    simp only [hd, Bool.false_eq_true, if_false]
    by_cases heq : pyStrip rawInput = deleteConfirmation groupId
    · simp only [heq, if_pos rfl]
      constructor
      · intro h
        exact absurd h (by decide)
      · intro hmem
        exact absurd hmem (pyLower_deleteConfirmation_not_cancel groupId)
    · simp [heq, htok]

/-- If the confirmation loop confirmed, some input's stripped form was the
exact confirmation string. -/
theorem confirmationOutcome_confirmed_exact (groupId : PyStr) :
    ∀ (inputs : List PyStr), confirmationOutcome groupId inputs = .confirmed →
      ∃ r ∈ inputs, pyStrip r = deleteConfirmation groupId := by
  intro inputs
  induction inputs with
  | nil =>
    intro h
    exact ConfirmOutcome.noConfusion h
  | cons r rest ih =>
    intro h
    unfold confirmationOutcome at h
    cases hc : classifyResponse groupId r with
    | abort =>
      rw [hc] at h
      exact ConfirmOutcome.noConfusion h
    | proceed =>
      exact ⟨r, List.mem_cons_self r rest, (classifyResponse_proceed_iff groupId r).mp hc⟩
    | reprompt =>
      rw [hc] at h
      obtain ⟨x, hx, he⟩ := ih h
      exact ⟨x, List.mem_cons_of_mem r hx, he⟩

/-- C6 corrected counterexample: the prompt strips surrounding whitespace
before comparing, so the input `"DELETE grp "` (with a trailing space), which
is not the exact string `"DELETE grp"`, nevertheless proceeds to deletion. -/
theorem confirmation_whitespace_counterexample :
    classifyResponse "grp".data "DELETE grp ".data = .proceed ∧
    ("DELETE grp ".data : PyStr) ≠ "DELETE grp".data :=
  ⟨by decide, by decide⟩

/-- C6 amended: the workflow proceeds to deletion exactly when an input whose
whitespace-stripped form equals the case-sensitive string
`DELETE <group_id>` is entered, aborts exactly when the stripped input
lowercases to one of no/n/cancel, re-prompts on every other input, and when
the loop does not confirm, no deletion is executed. -/
theorem confirmation_requires_exact_stripped_string
    (groupId rawInput : PyStr) (inputs : List PyStr) (toDelete : List AbsPath) :
    (classifyResponse groupId rawInput = .proceed ↔
      pyStrip rawInput = deleteConfirmation groupId) ∧
    (classifyResponse groupId rawInput = .abort ↔
      pyLower (pyStrip rawInput) ∈ cancelTokens) ∧
    (confirmationOutcome groupId inputs = .confirmed →
      ∃ r ∈ inputs, pyStrip r = deleteConfirmation groupId) ∧
    (confirmationOutcome groupId inputs ≠ .confirmed →
      executedDeletions groupId inputs toDelete = []) := by
  refine ⟨classifyResponse_proceed_iff groupId rawInput,
    classifyResponse_abort_iff groupId rawInput,
    confirmationOutcome_confirmed_exact groupId inputs, ?_⟩
  intro h
  unfold executedDeletions
  cases ho : confirmationOutcome groupId inputs
  · rfl
  · exact absurd ho h
  · rfl

/-- Witness for C6 amended: an input sequence that re-prompts once and then
confirms contains an input stripping to the confirmation string; a cancelled
sequence executes no deletion. -/
theorem confirmation_requires_exact_stripped_string_witness :
    (∃ r ∈ (["first try".data, " DELETE grp ".data] : List PyStr),
      pyStrip r = deleteConfirmation "grp".data) ∧
    executedDeletions "grp".data ["no".data] [["p".data]] = [] :=
  ⟨(confirmation_requires_exact_stripped_string "grp".data []
      ["first try".data, " DELETE grp ".data] []).2.2.1 (by decide),
    (confirmation_requires_exact_stripped_string "grp".data []
      ["no".data] [["p".data]]).2.2.2 (by decide)⟩

/-! ## Claim C3: protected branches are never deletion targets -/

/-- C3: for every repository state, every branch age and every dirty or clean
combination, no branch-deletion attempt issued by the pruning pass targets a
member of the protected-branch set: the enumeration pops every protected
branch before the age filter runs. -/
theorem no_protected_branch_deletion_attempt
    (now : ℚ) (r : RepoState) (b : PyStr)
    (hb : b ∈ (pruneRepo now r).deleteAttempts) :
    b ∉ PROTECTED_BRANCHES := by
  simp only [pruneRepo] at hb
  obtain ⟨bt, hmem, rfl⟩ := List.mem_map.mp hb
  have h1 := (List.mem_filter.mp hmem).1
  unfold getBranchesWithCommitDates at h1
  exact of_decide_eq_true (List.mem_filter.mp h1).2

/-- Witness for C3: a stale unprotected branch is attempted (so the theorem's
hypothesis is satisfiable) and is indeed not protected. -/
theorem no_protected_branch_deletion_attempt_witness :
    "feature".data ∈ (pruneRepo 1000000
        ⟨some "main".data, true, some "main".data, false, "backup-1".data,
          ["feature 100".data, "main 50".data]⟩).deleteAttempts ∧
    ("feature".data : PyStr) ∉ PROTECTED_BRANCHES := by
  have hage : decide (ageInDays 1000000 100 < DAYS_OLD_THRESHOLD) = false := by
    rw [decide_eq_false_iff_not]
    unfold ageInDays DAYS_OLD_THRESHOLD
    norm_num
  have hbr : getBranchesWithCommitDates ["feature 100".data, "main 50".data]
      = [("feature".data, 100)] := by decide
  have hmem : "feature".data ∈ (pruneRepo 1000000
      ⟨some "main".data, true, some "main".data, false, "backup-1".data,
        ["feature 100".data, "main 50".data]⟩).deleteAttempts := by
    simp only [pruneRepo, hbr, List.filter_cons, List.filter_nil, hage, Bool.not_false,
      if_true, List.map_cons, List.map_nil]
    simp
  exact ⟨hmem, no_protected_branch_deletion_attempt 1000000 _ _ hmem⟩

/-! ## Claim C5: detached HEAD handling in the pruning pass -/

/-- C5 counterexample: a repository with a detached HEAD (no active branch)
is recorded as abnormal, but — contrary to the claim — the pruning pass does
attempt a checkout of it: `None` is not a member of the protected-branch
set, so `safe_checkout` runs and issues a checkout of the default branch. -/
theorem detached_head_checkout_counterexample :
    (pruneRepo 0 ⟨none, true, some "main".data, false, "backup-1".data,
        []⟩).checkoutAttempted = true ∧
    (pruneRepo 0 ⟨none, true, some "main".data, false, "backup-1".data, []⟩).gitOps
      = [GitOp.checkout "main".data] ∧
    (pruneRepo 0 ⟨none, true, some "main".data, false, "backup-1".data,
        []⟩).abnormal = true :=
  ⟨rfl, rfl, rfl⟩

/-- C5 amended: a repository whose HEAD is detached is recorded as abnormal
and the pass continues to branch enumeration, but safe-checkout is also
attempted on it (the `None` active branch is treated as unprotected). -/
theorem detached_head_recorded_abnormal_and_checkout_attempted
    (now : ℚ) (r : RepoState) (h : r.activeBranch = none) :
    (pruneRepo now r).abnormal = true ∧
    (pruneRepo now r).checkoutAttempted = true ∧
    (pruneRepo now r).gitOps = (safeCheckout r).1 ∧
    (pruneRepo now r).deleteAttempts
      = ((getBranchesWithCommitDates r.branchLines).filter
          (fun bt => !decide (ageInDays now bt.2 < DAYS_OLD_THRESHOLD))).map
            Prod.fst := by
  refine ⟨?_, ?_, ?_, ?_⟩
  · simp [pruneRepo, h]
  · simp [pruneRepo, h, activeBranchNotProtected]
  · simp [pruneRepo, h, activeBranchNotProtected]
  · simp [pruneRepo]

/-- Witness for C5 amended, at a concrete detached repository. -/
theorem detached_head_recorded_abnormal_witness :
    (pruneRepo 0 ⟨none, false, none, false, "backup-1".data, []⟩).abnormal = true ∧
    (pruneRepo 0 ⟨none, false, none, false, "backup-1".data,
        []⟩).checkoutAttempted = true :=
  ⟨(detached_head_recorded_abnormal_and_checkout_attempted 0 _ rfl).1,
    (detached_head_recorded_abnormal_and_checkout_attempted 0 _ rfl).2.1⟩

/-! ## Claim C7: backup before default-branch checkout -/

/-- C7 counterexample: a dirty repository whose default branch cannot be
resolved gets no backup at all — `safe_checkout` returns failure before the
dirty-state branch is reached, so no backup branch is created and no commit
with the fixed backup message exists afterward, contrary to the claim's
unconditional promise for every dirty repository. -/
theorem dirty_without_default_counterexample :
    safeCheckout ⟨some "wip".data, true, none, true, "backup-1".data, []⟩
      = ([], false) ∧
    GitOp.commit DEFAULT_BACKUP_COMMIT_MESSAGE ∉
      (safeCheckout ⟨some "wip".data, true, none, true, "backup-1".data, []⟩).1 :=
  ⟨rfl, by decide⟩

/-- C7 amended: when safe-checkout of a dirty repository reaches the
checkout stage (the head is valid and a default branch resolves), it creates
the backup branch, adds all pending changes and commits them under the fixed
backup message strictly before the default-branch checkout — the issued
operation sequence is exactly backup-branch, add-all, backup-commit,
checkout; when the head is invalid or no default branch resolves,
safe-checkout issues no git operation at all (so a default-branch checkout
still never precedes the backup commit). -/
theorem backup_commit_before_default_checkout
    (r : RepoState) (hdirty : r.dirty = true) :
    (∀ b, r.headValid = true → r.defaultBranch = some b →
      safeCheckout r = ([GitOp.checkoutNewBranch r.backupBranchName, GitOp.addAll,
        GitOp.commit DEFAULT_BACKUP_COMMIT_MESSAGE, GitOp.checkout b], true)) ∧
    (r.headValid = false → safeCheckout r = ([], false)) ∧
    (r.defaultBranch = none → safeCheckout r = ([], false)) := by
  refine ⟨?_, ?_, ?_⟩
  · intro b hv hdb
    simp [safeCheckout, hv, hdb, hdirty]
  · intro hv
    simp [safeCheckout, hv]
  · intro hdb
    unfold safeCheckout
    cases hhv : r.headValid
    · simp
    · simp [hdb]

/-- Witness for C7 amended: a concrete dirty repository with default branch
`main` issues exactly the backup sequence followed by the checkout. -/
theorem backup_commit_before_default_checkout_witness :
    safeCheckout ⟨some "wip".data, true, some "main".data, true,
        "backup-20240101-120000".data, []⟩
      = ([GitOp.checkoutNewBranch "backup-20240101-120000".data, GitOp.addAll,
          GitOp.commit DEFAULT_BACKUP_COMMIT_MESSAGE,
          GitOp.checkout "main".data], true) :=
  (backup_commit_before_default_checkout _ rfl).1 "main".data rfl rfl

/-! ## Claim C9: missing access token -/

/-- C9 counterexample: with the token unset, a missing base directory and a
group id supplied, `main` creates the base directory before the fatal exit —
a filesystem mutation precedes the non-zero exit; and with no group id
supplied the token is never checked at all and the process exits 0. -/
theorem token_missing_basedir_created_counterexample :
    mainRun true false false "grp".data ["home".data, "r".data] true false false
      = ⟨[MainEvent.createBaseDir], 1⟩ ∧
    mainRun true true false [] ["home".data, "r".data] false false true
      = ⟨[], 0⟩ :=
  ⟨rfl, rfl⟩

/-- C9 amended: when a group id is supplied (and the `glab` dependency is
present), an unset access token makes the run exit with status 1 before any
network request, sync, clone or cleanup work — the only side effect that may
precede the exit is the creation of the base directory itself. -/
theorem token_missing_exits_before_work
    (baseDirExists tokenSet : Bool) (groupId : PyStr) (baseDirectory : AbsPath)
    (doSync doClone doCleanup : Bool)
    (hg : groupId ≠ []) (ht : tokenSet = false) :
    (mainRun true baseDirExists tokenSet groupId baseDirectory doSync doClone
        doCleanup).exitCode = 1 ∧
    ∀ e ∈ (mainRun true baseDirExists tokenSet groupId baseDirectory doSync doClone
        doCleanup).events, e = MainEvent.createBaseDir := by
  subst ht
  have hrun : mainRun true baseDirExists false groupId baseDirectory doSync doClone
      doCleanup = ⟨if baseDirExists then [] else [MainEvent.createBaseDir], 1⟩ := by
    simp [mainRun, hg]
  rw [hrun]
  refine ⟨rfl, ?_⟩
  intro e he
  cases baseDirExists
  · simpa using he
  · simp at he

/-- Witness for C9 amended: concrete run with all operations requested. -/
theorem token_missing_exits_before_work_witness :
    (mainRun true true false "grp".data ["home".data, "r".data] true true
        true).exitCode = 1 :=
  (token_missing_exits_before_work true false "grp".data ["home".data, "r".data]
    true true true (by decide) rfl).1

end GitManager
